import Mathlib

/-!
# Verification of the vercel-seo-audit core engine

Shallow embedding of the audit engine of the `vercel-seo-audit` repository:
the redirect-chain follower (`src/utils/http.ts`), the robots.txt analyzer
(`src/audit/robots.ts`), the sitemap analyzer (`src/audit/sitemap.ts`), the
metadata analyzer (`src/audit/metadata.ts`), the structured-data analyzer
(`src/audit/structuredData.ts`), the homepage-HTML cache preludes of the
favicon, i18n, images and performance analyzers, and the orchestrator
(`src/runner.ts`).

External platform facilities (the WHATWG `URL` resolver, the `fetch` network
layer, the cheerio HTML parser, `JSON.parse`) are modelled as explicit
function parameters: each embedded operation takes the outcome of those
facilities as an input, so the embedded control flow is exactly the source's
while the environment stays abstract.  Fallible calls are `Option`-valued
(`none` models a thrown exception caught by the source's `try`/`catch`).
-/

namespace SeoAudit

/-! ## Data model (`src/types.ts`) -/

/-- `IssueSeverity` from `src/types.ts`. -/
inductive Severity where
  | error
  | warning
  | info
  | pass
deriving DecidableEq, Repr

/-- `IssueCode` from `src/types.ts` (the closed enum of finding codes). -/
inductive IssueCode where
  | REDIRECT_CHAIN | REDIRECT_LOOP | HTTP_TO_HTTPS_REDIRECT | HTTP_NO_HTTPS_REDIRECT
  | TRAILING_SLASH_REDIRECT | META_REFRESH_REDIRECT | COMMON_PAGE_REDIRECT
  | NOINDEX_DETECTED | X_ROBOTS_NOINDEX
  | CANONICAL_MISSING | CANONICAL_MISMATCH | CANONICAL_EXTERNAL
  | CHARSET_MISSING | VIEWPORT_MISSING | TITLE_MISSING | DESCRIPTION_MISSING
  | OG_TITLE_MISSING | OG_DESCRIPTION_MISSING | OG_IMAGE_MISSING
  | OG_IMAGE_BROKEN | OG_IMAGE_RELATIVE
  | TWITTER_CARD_MISSING | TWITTER_IMAGE_MISSING | TWITTER_IMAGE_BROKEN
  | FAVICON_MISSING | FAVICON_CONFLICT | FAVICON_HTML_MISSING
  | SITEMAP_MISSING | SITEMAP_REDIRECTED | SITEMAP_EMPTY
  | SITEMAP_INVALID_URL | SITEMAP_URL_ERROR | SITEMAP_ROBOTS_MISMATCH
  | ROBOTS_MISSING | ROBOTS_BLOCKS_ALL | ROBOTS_BLOCKS_GOOGLEBOT | ROBOTS_NO_SITEMAP
  | VERCEL_DETECTED | NEXTJS_TRAILING_SLASH_308 | MIDDLEWARE_REDIRECT | APP_ROUTER_METADATA
  | JSONLD_MISSING | JSONLD_INVALID_JSON | JSONLD_MISSING_CONTEXT
  | JSONLD_MISSING_TYPE | JSONLD_EMPTY_FIELDS
  | CRAWL_PAGE_ERROR | CRAWL_PAGE_NOINDEX | CRAWL_PAGE_TITLE_MISSING
  | CRAWL_PAGE_DESCRIPTION_MISSING | CRAWL_PAGE_CANONICAL_MISSING
  | CRAWL_PAGE_CANONICAL_MISMATCH | CRAWL_PAGE_JSONLD_MISSING
  | HREFLANG_MISSING | HREFLANG_INVALID_LANG | HREFLANG_MISSING_SELF
  | HREFLANG_MISSING_XDEFAULT | HREFLANG_MISSING_RECIPROCAL | HREFLANG_DUPLICATE
  | IMG_MISSING_ALT | IMG_EMPTY_ALT | IMG_NO_NEXT_IMAGE | IMG_NO_LAZY_LOADING
  | IMG_LARGE_FILE | IMG_MISSING_DIMENSIONS
  | HSTS_MISSING | CONTENT_TYPE_OPTIONS_MISSING | FRAME_PROTECTION_MISSING
  | REFERRER_POLICY_MISSING
  | HTML_SIZE_WARNING | RENDER_BLOCKING_SCRIPT | LARGE_INLINE_STYLE | MISSING_PRECONNECT
deriving DecidableEq, Repr

/-- `AuditFinding` from `src/types.ts`.  The free-text fields
(`message`, `explanation`, `suggestion`) and the `url` field carry no logic in
any claim and are omitted; the `details` bag is kept as the list of strings
actually inspected by a claim (the detected JSON-LD types for the aggregate
structured-data pass; `[]` elsewhere). -/
structure Finding where
  code : IssueCode
  severity : Severity
  details : List String := []
deriving DecidableEq, Repr

/-- `FetchOptions` from `src/types.ts`. -/
structure FetchOptions where
  timeout : Option Nat := none
  userAgent : Option String := none
deriving DecidableEq, Repr

/-- `AuditContext` from `src/types.ts` (the shared per-run mutable record;
modelled as an explicitly threaded value). -/
structure AuditContext where
  url : String
  normalizedUrl : String
  fetchOptions : FetchOptions := {}
  verbose : Bool := false
  robotsTxt : Option String := none
  html : Option String := none
  headers : Option (List (String × String)) := none
  pages : Option (List String) := none
  sitemapUrls : Option (List String) := none
  crawlLimit : Option Nat := none
deriving DecidableEq, Repr

/-- `AuditModuleResult` from `src/types.ts`. -/
structure AuditModuleResult where
  module : String
  findings : List Finding
deriving DecidableEq, Repr

/-- The `summary` component of `AuditReport` from `src/types.ts`. -/
structure Summary where
  errors : Nat
  warnings : Nat
  info : Nat
  passed : Nat
deriving DecidableEq, Repr

/-- `AuditReport` from `src/types.ts` (the `timestamp` and `duration` fields
are wall-clock effects and are omitted). -/
structure AuditReport where
  url : String
  summary : Summary
  modules : List AuditModuleResult
deriving DecidableEq, Repr

/-! ## Orchestrator (`src/runner.ts`)

Each analyzer is a promise-producing function of the context; what the
orchestrator observes of it is its settled outcome.  The embedding therefore
abstracts a run's analyzers as an `outcome` map from module name to
`Except Unit (List Finding)`: `Except.ok` models a fulfilled promise,
`Except.error` a rejected one. -/

/-- The `phase1Modules` list of `src/runner.ts`. -/
def phase1Modules : List String := ["robots", "redirects"]

/-- The `phase2Modules` list of `src/runner.ts`. -/
def phase2Modules : List String :=
  ["sitemap", "metadata", "favicon", "nextjs", "structuredData", "i18n", "images", "security"]

/-- `runModules` from `src/runner.ts`: `Promise.allSettled` over the modules,
then keep only the fulfilled results, in order. -/
def runModules (modules : List String)
    (outcome : String → Except Unit (List Finding)) : List AuditModuleResult :=
  (modules.map fun m => (m, outcome m)).filterMap fun r =>
    match r.2 with
    | Except.ok findings => some ⟨r.1, findings⟩
    | Except.error _ => none

/-- The summary computation of `runAudit` (`src/runner.ts` lines 98–105):
one aggregation pass over the flattened findings of all modules. -/
def computeSummary (allFindings : List Finding) : Summary :=
  { errors := (allFindings.filter fun f => f.severity = Severity.error).length
    warnings := (allFindings.filter fun f => f.severity = Severity.warning).length
    info := (allFindings.filter fun f => f.severity = Severity.info).length
    passed := (allFindings.filter fun f => f.severity = Severity.pass).length }

/-- `runAudit` from `src/runner.ts`: phase 1, then phase 2, then (when a crawl
limit was requested) the crawl phase; aggregate the summary from the kept
modules.  `crawl` mirrors `opts.crawl`; `normalized` abstracts
`normalizeUrl(url)` (a WHATWG-`URL` computation). -/
def runAudit (normalized : String) (crawl : Option Nat)
    (outcome : String → Except Unit (List Finding)) : AuditReport :=
  let phase1Results := runModules phase1Modules outcome
  let phase2Results := runModules phase2Modules outcome
  let allModules :=
    if crawl.isSome then
      phase1Results ++ phase2Results ++ runModules ["crawl"] outcome
    else
      phase1Results ++ phase2Results
  let allFindings := (allModules.map fun m => m.findings).flatten
  { url := normalized
    summary := computeSummary allFindings
    modules := allModules }

/-! ## Fetch layer (`src/utils/http.ts`)

`fetchWithoutRedirect` is a raw network request; the embedding abstracts the
network as `net : String → Option HttpResponse`, where `none` models a thrown
timeout/connection error and `HttpResponse` carries the status and the
`Location` header (`headers.get('location')`, `none` when absent).  The WHATWG
resolution `new URL(location, current).href` is abstracted as
`resolve location current`. -/

/-- `MAX_REDIRECTS` from `src/constants.ts`. -/
def MAX_REDIRECTS : Nat := 20

/-- What `followRedirectChain` reads off one manual-redirect response:
`res.status` and `res.headers.get('location')`. -/
structure HttpResponse where
  status : Nat
  location : Option String := none
deriving DecidableEq, Repr

/-- `RedirectHop` from `src/types.ts`. -/
structure RedirectHop where
  url : String
  status : Nat
  location : String
deriving DecidableEq, Repr

/-- `RedirectChain` from `src/types.ts`. -/
structure RedirectChain where
  hops : List RedirectHop
  finalUrl : String
  isCircular : Bool
deriving DecidableEq, Repr

/-- The loop body of `followRedirectChain` (`src/utils/http.ts` lines 38–63),
with the remaining iteration budget as explicit fuel, the `seen` set as a
list, and the `hops` accumulator threaded.  The second component counts the
requests actually issued (calls of `fetchWithoutRedirect`).  A fetch failure
(`net current = none`) is the source's `catch { break }`, which falls through
to the `return { hops, finalUrl: current, isCircular: false }` after the
loop.  The redirect branch requires a present, non-empty `Location` header
(JavaScript truthiness of `location`) and `300 <= status < 400`. -/
def followAux (net : String → Option HttpResponse) (resolve : String → String → String) :
    Nat → List String → List RedirectHop → String → RedirectChain × Nat
  | 0, _, hops, current => (⟨hops, current, false⟩, 0)
  | fuel + 1, seen, hops, current =>
    if current ∈ seen then
      (⟨hops, current, true⟩, 0)
    else
      match net current with
      | none => (⟨hops, current, false⟩, 1)
      | some res =>
        match res.location with
        | some loc =>
          if loc ≠ "" ∧ 300 ≤ res.status ∧ res.status < 400 then
            let resolved := resolve loc current
            let rest := followAux net resolve fuel (current :: seen)
              (hops ++ [⟨current, res.status, resolved⟩]) resolved
            (rest.1, rest.2 + 1)
          else
            (⟨hops, current, false⟩, 1)
        | none => (⟨hops, current, false⟩, 1)

/-- `followRedirectChain` from `src/utils/http.ts`. -/
def followRedirectChain (net : String → Option HttpResponse)
    (resolve : String → String → String) (url : String) : RedirectChain :=
  (followAux net resolve MAX_REDIRECTS [] [] url).1

/-- Number of requests `followRedirectChain` issues on the given input. -/
def followRedirectRequests (net : String → Option HttpResponse)
    (resolve : String → String → String) (url : String) : Nat :=
  (followAux net resolve MAX_REDIRECTS [] [] url).2

/-- Invariant-based characterization of the redirect loop: starting from a
state whose `seen` set holds exactly the URLs of the recorded hops and whose
remaining fuel plus recorded hops equals `MAX_REDIRECTS`, the loop issues at
most `fuel` further requests, and reports `isCircular = true` exactly when the
final URL is one of the recorded hop URLs and fewer than `MAX_REDIRECTS` hops
were recorded. -/
theorem followAux_seen (net : String → Option HttpResponse)
    (resolve : String → String → String) (fuel : Nat) (seen : List String)
    (hops : List RedirectHop) (current : String) (h : current ∈ seen) :
    followAux net resolve (fuel + 1) seen hops current = (⟨hops, current, true⟩, 0) := by
  simp [followAux, h]

theorem followAux_netFail (net : String → Option HttpResponse)
    (resolve : String → String → String) (fuel : Nat) (seen : List String)
    (hops : List RedirectHop) (current : String) (h : current ∉ seen)
    (hnet : net current = none) :
    followAux net resolve (fuel + 1) seen hops current = (⟨hops, current, false⟩, 1) := by
  simp [followAux, h, hnet]

theorem followAux_noLocation (net : String → Option HttpResponse)
    (resolve : String → String → String) (fuel : Nat) (seen : List String)
    (hops : List RedirectHop) (current : String) (res : HttpResponse) (h : current ∉ seen)
    (hnet : net current = some res) (hloc : res.location = none) :
    followAux net resolve (fuel + 1) seen hops current = (⟨hops, current, false⟩, 1) := by
  simp [followAux, h, hnet, hloc]

theorem followAux_notRedirect (net : String → Option HttpResponse)
    (resolve : String → String → String) (fuel : Nat) (seen : List String)
    (hops : List RedirectHop) (current : String) (res : HttpResponse) (loc : String)
    (h : current ∉ seen) (hnet : net current = some res) (hloc : res.location = some loc)
    (hcond : ¬(loc ≠ "" ∧ 300 ≤ res.status ∧ res.status < 400)) :
    followAux net resolve (fuel + 1) seen hops current = (⟨hops, current, false⟩, 1) := by
  simp [followAux, h, hnet, hloc, hcond]

theorem followAux_redirect (net : String → Option HttpResponse)
    (resolve : String → String → String) (fuel : Nat) (seen : List String)
    (hops : List RedirectHop) (current : String) (res : HttpResponse) (loc : String)
    (h : current ∉ seen) (hnet : net current = some res) (hloc : res.location = some loc)
    (hcond : loc ≠ "" ∧ 300 ≤ res.status ∧ res.status < 400) :
    followAux net resolve (fuel + 1) seen hops current =
      ((followAux net resolve fuel (current :: seen)
          (hops ++ [⟨current, res.status, resolve loc current⟩]) (resolve loc current)).1,
        (followAux net resolve fuel (current :: seen)
          (hops ++ [⟨current, res.status, resolve loc current⟩]) (resolve loc current)).2 + 1) := by
  simp [followAux, h, hnet, hloc, hcond.1, hcond.2.1, hcond.2.2]

theorem followAux_characterization (net : String → Option HttpResponse)
    (resolve : String → String → String) :
    ∀ (fuel : Nat) (seen : List String) (hops : List RedirectHop) (current : String),
      (∀ x, x ∈ seen ↔ x ∈ hops.map RedirectHop.url) →
      fuel + hops.length = MAX_REDIRECTS →
      (followAux net resolve fuel seen hops current).2 ≤ fuel ∧
        ((followAux net resolve fuel seen hops current).1.isCircular = true ↔
          (followAux net resolve fuel seen hops current).1.finalUrl ∈
              (followAux net resolve fuel seen hops current).1.hops.map RedirectHop.url ∧
            (followAux net resolve fuel seen hops current).1.hops.length < MAX_REDIRECTS) := by
  intro fuel
  induction fuel with
  | zero =>
    intro seen hops current hseen hlen
    simp only [followAux]
    refine ⟨Nat.le_refl 0, ?_⟩
    simp only [Nat.zero_add] at hlen
    constructor
    · intro hfalse
      exact absurd hfalse (by simp)
    · intro hmem
      exact absurd hmem.2 (by omega)
  | succ fuel ih =>
    intro seen hops current hseen hlen
    by_cases hmem : current ∈ seen
    · rw [followAux_seen net resolve fuel seen hops current hmem]
      refine ⟨Nat.zero_le _, ?_⟩
      constructor
      · intro _
        exact ⟨(hseen current).mp hmem, show hops.length < MAX_REDIRECTS by omega⟩
      · intro _
        rfl
    · have hnothop : current ∉ hops.map RedirectHop.url := fun hc => hmem ((hseen current).mpr hc)
      cases hnet : net current with
      | none =>
        rw [followAux_netFail net resolve fuel seen hops current hmem hnet]
        refine ⟨Nat.le_add_left 1 fuel, ?_⟩
        constructor
        · intro hfalse
          exact absurd hfalse (by simp)
        · intro hc
          exact absurd hc.1 hnothop
      | some res =>
        cases hloc : res.location with
        | none =>
          rw [followAux_noLocation net resolve fuel seen hops current res hmem hnet hloc]
          refine ⟨Nat.le_add_left 1 fuel, ?_⟩
          constructor
          · intro hfalse
            exact absurd hfalse (by simp)
          · intro hc
            exact absurd hc.1 hnothop
        | some loc =>
          by_cases hcond : loc ≠ "" ∧ 300 ≤ res.status ∧ res.status < 400
          · rw [followAux_redirect net resolve fuel seen hops current res loc hmem hnet hloc hcond]
            have hseen' : ∀ x, x ∈ current :: seen ↔
                x ∈ (hops ++
                  [(⟨current, res.status, resolve loc current⟩ : RedirectHop)]).map
                    RedirectHop.url := by
              intro x
              simp only [List.mem_cons, List.map_append, List.mem_append, List.map_cons,
                List.map_nil, List.mem_singleton, hseen x]
              tauto
            have hlen' : fuel +
                (hops ++ [(⟨current, res.status, resolve loc current⟩ : RedirectHop)]).length =
                MAX_REDIRECTS := by
              simp only [List.length_append, List.length_cons, List.length_nil]
              omega
            have h := ih (current :: seen)
              (hops ++ [(⟨current, res.status, resolve loc current⟩ : RedirectHop)])
              (resolve loc current) hseen' hlen'
            exact ⟨by omega, h.2⟩
          · rw [followAux_notRedirect net resolve fuel seen hops current res loc hmem hnet hloc hcond]
            refine ⟨Nat.le_add_left 1 fuel, ?_⟩
            constructor
            · intro hfalse
              exact absurd hfalse (by simp)
            · intro hc
              exact absurd hc.1 hnothop

/-! ### Concrete servers used as witnesses and counterexamples -/

/-- URL `k` of a redirect cycle. -/
def cycleUrl (k : Nat) : String := "https://example.com/u" ++ toString k

/-- A server whose 20 URLs form one 301-redirect cycle:
`u0 → u1 → … → u19 → u0`. -/
def cycleNet20 : String → Option HttpResponse := fun s =>
  (List.range 20).findSome? fun k =>
    if s = cycleUrl k then some ⟨301, some (cycleUrl ((k + 1) % 20))⟩ else none

/-- URL resolution when the `Location` header is already an absolute URL:
`new URL(loc, base).href` returns `loc` itself. -/
def resolveAbsolute : String → String → String := fun loc _ => loc

/-- A server that 301-redirects every URL to itself. -/
def selfRedirectNet : String → Option HttpResponse := fun s => some ⟨301, some s⟩

/-- A network on which every request fails (times out / connection refused). -/
def failNet : String → Option HttpResponse := fun _ => none

/-- C3 counterexample: on the 20-URL redirect cycle, `followRedirectChain`
records 20 hops and the next hop (`u0`) is a URL that was already visited, yet
it returns `isCircular = false` — the revisit is only ever checked at the top
of a loop iteration, and the iteration budget is exhausted first.  This
refutes the claim that *whenever* the next hop resolves to an
already-visited URL the function reports `isCircular = true`. -/
theorem C3_counterexample :
    (followRedirectChain cycleNet20 resolveAbsolute (cycleUrl 0)).isCircular = false ∧
      (followRedirectChain cycleNet20 resolveAbsolute (cycleUrl 0)).finalUrl ∈
        (followRedirectChain cycleNet20 resolveAbsolute (cycleUrl 0)).hops.map
          RedirectHop.url ∧
      (followRedirectChain cycleNet20 resolveAbsolute (cycleUrl 0)).hops.length = 20 := by
  decide

/-- C3 (amended): `followRedirectChain` always terminates after at most
`MAX_REDIRECTS = 20` requests; it reports `isCircular = true` exactly when the
final URL is one of the already-recorded hop URLs *and* fewer than 20 hops
were recorded (a revisit first reached when the 20-hop budget is exhausted is
reported with `isCircular = false`); in particular, a server hop that
redirects the start URL straight back to itself yields `isCircular = true`. -/
theorem C3_amended (net : String → Option HttpResponse)
    (resolve : String → String → String) (url : String) :
    followRedirectRequests net resolve url ≤ MAX_REDIRECTS ∧
      ((followRedirectChain net resolve url).isCircular = true ↔
        (followRedirectChain net resolve url).finalUrl ∈
            (followRedirectChain net resolve url).hops.map RedirectHop.url ∧
          (followRedirectChain net resolve url).hops.length < MAX_REDIRECTS) ∧
      (∀ (res : HttpResponse) (loc : String),
        net url = some res → res.location = some loc → loc ≠ "" →
        300 ≤ res.status → res.status < 400 → resolve loc url = url →
        (followRedirectChain net resolve url).isCircular = true) := by
  have hchar := followAux_characterization net resolve MAX_REDIRECTS [] [] url
    (by simp) (by simp)
  refine ⟨hchar.1, hchar.2, ?_⟩
  intro res loc hnet hloc hne hlow hhigh hres
  have hstep := followAux_redirect net resolve 19 [] [] url res loc
    (by simp) hnet hloc ⟨hne, hlow, hhigh⟩
  have hseenStep :
      followAux net resolve 19 (url :: [])
        ([] ++ [(⟨url, res.status, resolve loc url⟩ : RedirectHop)]) (resolve loc url) =
      (⟨[] ++ [(⟨url, res.status, resolve loc url⟩ : RedirectHop)], resolve loc url, true⟩, 0) :=
    followAux_seen net resolve 18 (url :: [])
      ([] ++ [(⟨url, res.status, resolve loc url⟩ : RedirectHop)]) (resolve loc url)
      (by rw [hres]; exact List.mem_cons_self url [])
  show (followAux net resolve (19 + 1) [] [] url).1.isCircular = true
  rw [hstep, hseenStep]

/-- Witness for `C3_amended`, instantiated on the self-redirecting server. -/
theorem C3_amended_witness :
    (followRedirectChain selfRedirectNet resolveAbsolute "https://a.com/").isCircular = true :=
  (C3_amended selfRedirectNet resolveAbsolute "https://a.com/").2.2
    ⟨301, some "https://a.com/"⟩ "https://a.com/" rfl rfl (by decide)
    (by decide) (by decide) rfl

/-- C9: `followRedirectChain` never propagates a network error.  At any loop
state, if the request for the current URL fails (`net current = none`, the
source's caught timeout/connection exception), the loop stops and returns the
hops collected so far, with `finalUrl` equal to the URL whose fetch failed and
`isCircular = false`; specialized to the entry state, a start URL whose very
first request fails yields `⟨[], url, false⟩`. -/
theorem C9_network_error_returns_partial_chain (net : String → Option HttpResponse)
    (resolve : String → String → String) :
    (∀ (fuel : Nat) (seen : List String) (hops : List RedirectHop) (current : String),
      current ∉ seen → net current = none →
      followAux net resolve (fuel + 1) seen hops current = (⟨hops, current, false⟩, 1)) ∧
    (∀ url : String, net url = none →
      followRedirectChain net resolve url = ⟨[], url, false⟩) := by
  constructor
  · intro fuel seen hops current hmem hnet
    exact followAux_netFail net resolve fuel seen hops current hmem hnet
  · intro url hnet
    show (followAux net resolve (19 + 1) [] [] url).1 = ⟨[], url, false⟩
    rw [followAux_netFail net resolve 19 [] [] url (by simp) hnet]

/-- Witness for `C9_network_error_returns_partial_chain` on the always-failing
network. -/
theorem C9_witness :
    followRedirectChain failNet resolveAbsolute "https://a.com/" =
      ⟨[], "https://a.com/", false⟩ :=
  (C9_network_error_returns_partial_chain failNet resolveAbsolute).2 "https://a.com/" rfl

/-! ### Orchestrator theorems -/

/-- Unfolding lemma: `runModules` keeps a fulfilled head and drops a rejected
one. -/
theorem runModules_cons (a : String) (mods : List String)
    (outcome : String → Except Unit (List Finding)) :
    runModules (a :: mods) outcome =
      match outcome a with
      | Except.ok fs => ⟨a, fs⟩ :: runModules mods outcome
      | Except.error _ => runModules mods outcome := by
  cases h : outcome a <;> simp [runModules, h]

/-- C1: for every report produced by `runAudit`, each summary count equals the
number of findings of the corresponding severity across all modules included
in the report — the counts are one aggregation over the flattened findings of
the report's modules. -/
theorem C1_summary_counts_findings (normalized : String) (crawl : Option Nat)
    (outcome : String → Except Unit (List Finding)) :
    ((runAudit normalized crawl outcome).summary.errors =
        (((runAudit normalized crawl outcome).modules.map
          AuditModuleResult.findings).flatten.countP fun f => f.severity = Severity.error) ∧
      (runAudit normalized crawl outcome).summary.warnings =
        (((runAudit normalized crawl outcome).modules.map
          AuditModuleResult.findings).flatten.countP fun f => f.severity = Severity.warning)) ∧
      ((runAudit normalized crawl outcome).summary.info =
        (((runAudit normalized crawl outcome).modules.map
          AuditModuleResult.findings).flatten.countP fun f => f.severity = Severity.info) ∧
      (runAudit normalized crawl outcome).summary.passed =
        (((runAudit normalized crawl outcome).modules.map
          AuditModuleResult.findings).flatten.countP fun f => f.severity = Severity.pass)) := by
  simp [runAudit, computeSummary, List.countP_eq_length_filter]

/-- C2: per-analyzer isolation.  A rejected analyzer is absent from the kept
results of its phase, a fulfilled analyzer always contributes its result, and
`runAudit` always completes, its report holding exactly the fulfilled results
of phase 1, phase 2 and (when crawling was requested) the crawl phase. -/
theorem C2_per_analyzer_isolation (outcome : String → Except Unit (List Finding))
    (normalized : String) (crawl : Option Nat) (m : String) :
    (outcome m = Except.error () →
      ∀ mods : List String, m ∉ (runModules mods outcome).map AuditModuleResult.module) ∧
    (∀ fs, outcome m = Except.ok fs →
      ∀ mods : List String, m ∈ mods →
        (⟨m, fs⟩ : AuditModuleResult) ∈ runModules mods outcome) ∧
    ((runAudit normalized crawl outcome).modules =
      if crawl.isSome then
        runModules phase1Modules outcome ++ runModules phase2Modules outcome ++
          runModules ["crawl"] outcome
      else
        runModules phase1Modules outcome ++ runModules phase2Modules outcome) := by
  refine ⟨?_, ?_, rfl⟩
  · intro herr mods
    induction mods with
    | nil => simp [runModules]
    | cons a t iht =>
      rw [runModules_cons]
      cases ha : outcome a with
      | error e => exact iht
      | ok fs =>
        simp only [List.map_cons, List.mem_cons]
        rintro (rfl | hmem)
        · rw [herr] at ha
          exact Except.noConfusion ha
        · exact iht hmem
  · intro fs hok mods hmem
    induction mods with
    | nil => exact absurd hmem (List.not_mem_nil m)
    | cons a t iht =>
      rw [runModules_cons]
      rcases List.mem_cons.mp hmem with rfl | hm
      · rw [hok]
        exact List.mem_cons_self _ _
      · cases ha : outcome a with
        | error e => exact iht hm
        | ok gs => exact List.mem_cons_of_mem _ (iht hm)

/-- An outcome assignment on which the `metadata` analyzer rejects and every
other analyzer fulfills with no findings. -/
def demoOutcome : String → Except Unit (List Finding) := fun m =>
  if m = "metadata" then Except.error () else Except.ok []

/-- Witness for `C2_per_analyzer_isolation`: on `demoOutcome`, `metadata` is
excluded from the phase-2 results while `robots` still contributes. -/
theorem C2_witness :
    "metadata" ∉ (runModules phase2Modules demoOutcome).map AuditModuleResult.module ∧
      (⟨"robots", []⟩ : AuditModuleResult) ∈ runModules phase1Modules demoOutcome :=
  ⟨(C2_per_analyzer_isolation demoOutcome "https://example.com/" none "metadata").1
      rfl phase2Modules,
    (C2_per_analyzer_isolation demoOutcome "https://example.com/" none "robots").2.1
      [] rfl phase1Modules (by decide)⟩

/-! ## JavaScript string primitives

The analyzers use `split`, `trim`, `toLowerCase`, `startsWith`, `includes`
and `Array::join` on strings.  These are embedded as structurally recursive
functions over `List Char` (the core-library `String` versions use
well-founded recursion, which the kernel cannot evaluate on the concrete
inputs the theorems below are instantiated with).  Semantics match the
JavaScript operations on the ASCII inputs involved. -/

/-- JavaScript `s.split(sep)` for a one-character separator. -/
def jsSplit (sep : Char) (s : String) : List String :=
  (s.toList.splitOn sep).map List.asString

/-- JavaScript `s.trim()` (ASCII whitespace). -/
def jsTrim (s : String) : String :=
  (((s.toList.dropWhile Char.isWhitespace).reverse.dropWhile Char.isWhitespace).reverse).asString

/-- JavaScript `s.toLowerCase()` (ASCII range). -/
def jsLower (s : String) : String :=
  (s.toList.map Char.toLower).asString

/-- JavaScript `s.startsWith(p)`. -/
def jsStartsWith (p s : String) : Bool :=
  p.toList.isPrefixOf s.toList

/-- Substring containment on character lists. -/
def charsInfix (needle : List Char) : List Char → Bool
  | [] => needle.isEmpty
  | c :: rest => needle.isPrefixOf (c :: rest) || charsInfix needle rest

/-- JavaScript `s.includes(sub)` (substring containment). -/
def jsIncludes (sub s : String) : Bool :=
  charsInfix sub.toList s.toList

/-- JavaScript `parts.join(sep)` for string arrays. -/
def jsJoin (sep : String) : List String → String
  | [] => ""
  | [x] => x
  | x :: xs => x ++ sep ++ jsJoin sep xs

/-- JavaScript `s.endsWith(p)`. -/
def jsEndsWith (p s : String) : Bool :=
  p.toList.isSuffixOf s.toList

/-! ## Robots analyzer (`src/audit/robots.ts`)

The network is abstracted as the settled outcome of
`fetchPage(robotsUrl, …)`: `none` models a thrown network error,
`some res` a response. -/

/-- The result of a successful `fetchPage` call (`src/utils/http.ts`). -/
structure PageResult where
  body : String
  status : Nat
  headers : List (String × String) := []
  finalUrl : String := ""
deriving DecidableEq, Repr

/-- `RobotsRule` from `src/audit/robots.ts`. -/
structure RobotsRule where
  userAgent : String
  disallow : List String
  allow : List String
deriving DecidableEq, Repr

/-- Line loop of `parseRobotsTxt` (`src/audit/robots.ts` lines 18–35).  The
source pushes a fresh mutable rule into `rules` on each `User-agent:` line and
mutates it in place on `Disallow:`/`Allow:` lines; the embedding threads the
in-progress rule (`cur`) and flushes it when the next `User-agent:` line (or
the end of input) is reached, which yields the same rule list in the same
order.  Lines arrive already trimmed. -/
def parseRobotsLines : List String → Option RobotsRule → List RobotsRule × List String
  | [], cur => ((match cur with | some r => [r] | none => []), [])
  | line :: rest, cur =>
    if jsStartsWith "#" line ∨ line = "" then
      parseRobotsLines rest cur
    else
      let parts := jsSplit ':' line
      let value := jsTrim (jsJoin ":" parts.tail)
      let keyLower := jsTrim (jsLower (parts.headD ""))
      if keyLower = "user-agent" then
        let res := parseRobotsLines rest (some ⟨value, [], []⟩)
        ((match cur with | some r => r :: res.1 | none => res.1), res.2)
      else if keyLower = "disallow" then
        match cur with
        | some r =>
          parseRobotsLines rest
            (some { r with disallow := if value ≠ "" then r.disallow ++ [value] else r.disallow })
        | none => parseRobotsLines rest none
      else if keyLower = "allow" then
        match cur with
        | some r =>
          parseRobotsLines rest
            (some { r with allow := if value ≠ "" then r.allow ++ [value] else r.allow })
        | none => parseRobotsLines rest none
      else if keyLower = "sitemap" then
        let res := parseRobotsLines rest cur
        (res.1, if value ≠ "" then value :: res.2 else res.2)
      else
        parseRobotsLines rest cur

/-- `parseRobotsTxt` from `src/audit/robots.ts`: split on newlines, trim each
line, then run the line loop. -/
def parseRobotsTxt (txt : String) : List RobotsRule × List String :=
  parseRobotsLines ((jsSplit '\n' txt).map jsTrim) none

/-- The findings a single parsed rule contributes in the rule loop of
`auditRobots` (`src/audit/robots.ts` lines 84–118). -/
def robotsRuleFindings (rule : RobotsRule) : List Finding :=
  let ua := jsLower rule.userAgent
  (if ua = "*" ∧ "/" ∈ rule.disallow then
    [⟨IssueCode.ROBOTS_BLOCKS_ALL, Severity.error, []⟩] else []) ++
  (if (ua = "googlebot" ∨ ua = "googlebot-news" ∨ ua = "googlebot-image") ∧
      "/" ∈ rule.disallow then
    [⟨IssueCode.ROBOTS_BLOCKS_GOOGLEBOT, Severity.error, []⟩] else [])

/-- `auditRobots` from `src/audit/robots.ts`, over the settled outcome of the
`/robots.txt` fetch.  Returns the findings and the updated context (the raw
text is cached on success). -/
def auditRobots (ctx : AuditContext) (page : Option PageResult) :
    List Finding × AuditContext :=
  match page with
  | none => ([⟨IssueCode.ROBOTS_MISSING, Severity.warning, []⟩], ctx)
  | some res =>
    if res.status = 200 then
      let ctx' := { ctx with robotsTxt := some res.body }
      let parsed := parseRobotsTxt res.body
      let ruleFindings := (parsed.1.map robotsRuleFindings).flatten
      let sitemapFindings :=
        if parsed.2.length = 0 then
          [⟨IssueCode.ROBOTS_NO_SITEMAP, Severity.info, []⟩] else []
      (ruleFindings ++ sitemapFindings, ctx')
    else
      ([⟨IssueCode.ROBOTS_MISSING, Severity.warning, []⟩], ctx)

/-- A parsed rule "blocks all": a `User-agent: *` block with `Disallow: /`. -/
def blocksAll (rule : RobotsRule) : Bool :=
  jsLower rule.userAgent = "*" ∧ "/" ∈ rule.disallow

example : parseRobotsTxt "User-agent: *\nDisallow: /" =
    ([⟨"*", ["/"], []⟩], []) := by decide

example : parseRobotsTxt
    "# note\nUser-agent: *\nAllow: /a\n\nUser-agent: Googlebot\nDisallow: /\nSitemap: https://e.com/s.xml" =
    ([⟨"*", [], ["/a"]⟩, ⟨"Googlebot", ["/"], []⟩], ["https://e.com/s.xml"]) := by decide

/-- The `ROBOTS_BLOCKS_ALL` findings one rule contributes: one when the rule
blocks all crawlers, none otherwise. -/
theorem robotsRuleFindings_blocksAll_count (r : RobotsRule) :
    (robotsRuleFindings r).countP (fun f => f.code = IssueCode.ROBOTS_BLOCKS_ALL) =
      if blocksAll r then 1 else 0 := by
  unfold robotsRuleFindings blocksAll
  by_cases ha : jsLower r.userAgent = "*" <;>
    by_cases hd : "/" ∈ r.disallow <;>
    by_cases hgl : jsLower r.userAgent = "googlebot" ∨
      jsLower r.userAgent = "googlebot-news" ∨ jsLower r.userAgent = "googlebot-image" <;>
    simp [ha, hd, hgl]

/-- C8: after a 200 fetch of `/robots.txt`, the number of
`ROBOTS_BLOCKS_ALL` error findings equals the number of parsed
`User-agent: *` blocks containing `Disallow: /` — exactly one per such block
and none otherwise (a non-200 or failed fetch yields none at all). -/
theorem C8_robots_blocks_all (ctx : AuditContext) (page : Option PageResult) :
    (auditRobots ctx page).1.countP
        (fun f => f.code = IssueCode.ROBOTS_BLOCKS_ALL) =
      (match page with
        | none => 0
        | some res =>
          if res.status = 200 then (parseRobotsTxt res.body).1.countP blocksAll
          else 0) := by
  cases page with
  | none => simp [auditRobots]
  | some res =>
    by_cases h200 : res.status = 200
    · simp only [auditRobots, h200, if_pos, if_true]
      rw [List.countP_append]
      have hsit : (if (parseRobotsTxt res.body).2.length = 0 then
          [(⟨IssueCode.ROBOTS_NO_SITEMAP, Severity.info, []⟩ : Finding)] else []).countP
            (fun f => f.code = IssueCode.ROBOTS_BLOCKS_ALL) = 0 := by
        split <;> simp
      rw [hsit, Nat.add_zero]
      induction (parseRobotsTxt res.body).1 with
      | nil => simp
      | cons r t iht =>
        simp only [List.map_cons, List.flatten_cons, List.countP_append, List.countP_cons, iht,
          robotsRuleFindings_blocksAll_count]
        by_cases hb : blocksAll r <;> simp [hb, Nat.add_comm]
    · simp [auditRobots, h200]

/-! ## Sitemap analyzer (`src/audit/sitemap.ts`)

Abstracted environment: `origin` is `getOrigin(ctx.normalizedUrl)` (a WHATWG
`URL` computation), `chain` the outcome of
`followRedirectChain(sitemapUrl, …)`, `page` the settled outcome of
`fetchPage(sitemapUrl, …)`, `parseXml` the behavior of `parseSitemapXml`
(`Except.error` models a thrown parse exception) and `head` the settled
status of `fetchHead` per URL (`none` models a network failure). -/

/-- `SITEMAP_SAMPLE_SIZE` from `src/constants.ts`. -/
def SITEMAP_SAMPLE_SIZE : Nat := 10

/-- The result of `parseSitemapXml` (`src/utils/xml-parser.ts`): either a
sitemap-index with child sitemap URLs, or a url-set whose entries are kept as
their `loc` values (the only entry field `auditSitemap` reads). -/
inductive SitemapParsed where
  | sitemapindex (sitemaps : List String)
  | urlset (urls : List String)
deriving DecidableEq, Repr

/-- The `Sitemap:` directives `auditSitemap` harvests from the cached
robots.txt text (`src/audit/sitemap.ts` lines 147–150). -/
def robotsSitemapDirectives (txt : String) : List String :=
  ((jsSplit '\n' txt).filter fun l => jsStartsWith "sitemap:" (jsTrim (jsLower l))).map
    fun l => jsTrim (jsJoin ":" (jsSplit ':' l).tail)

/-- The per-URL findings of the sample loop (`src/audit/sitemap.ts` lines
111–131): a `SITEMAP_URL_ERROR` warning for each sampled URL whose HEAD status
is `>= 400`; a failed HEAD request is skipped. -/
def sitemapSampleFindings (head : String → Option Nat) (sample : List String) : List Finding :=
  (sample.map fun loc =>
    match head loc with
    | some st =>
      if 400 ≤ st then [⟨IssueCode.SITEMAP_URL_ERROR, Severity.warning, []⟩] else []
    | none => []).flatten

/-- `auditSitemap` from `src/audit/sitemap.ts`.  Every exit returns the
context exactly as received: the source reads `ctx.robotsTxt` but never
assigns any context field (in particular it never writes
`ctx.sitemapUrls`). -/
def auditSitemap (ctx : AuditContext) (origin : String) (chain : RedirectChain)
    (page : Option PageResult) (parseXml : String → Except Unit SitemapParsed)
    (head : String → Option Nat) : List Finding × AuditContext :=
  let sitemapUrl := origin ++ "/sitemap.xml"
  let redirectFindings :=
    if 0 < chain.hops.length then
      [⟨IssueCode.SITEMAP_REDIRECTED, Severity.warning, chain.finalUrl :: []⟩] else []
  match page with
  | none => (redirectFindings ++ [⟨IssueCode.SITEMAP_MISSING, Severity.warning, []⟩], ctx)
  | some res =>
    if res.status ≠ 200 then
      (redirectFindings ++ [⟨IssueCode.SITEMAP_MISSING, Severity.warning, []⟩], ctx)
    else
      match parseXml res.body with
      | Except.error _ =>
        (redirectFindings ++ [⟨IssueCode.SITEMAP_MISSING, Severity.error, []⟩], ctx)
      | Except.ok (SitemapParsed.sitemapindex sitemaps) =>
        (redirectFindings ++ [⟨IssueCode.SITEMAP_MISSING, Severity.pass, sitemaps⟩], ctx)
      | Except.ok (SitemapParsed.urlset urls) =>
        if urls.length = 0 then
          (redirectFindings ++ [⟨IssueCode.SITEMAP_EMPTY, Severity.warning, []⟩], ctx)
        else
          let sample := urls.take SITEMAP_SAMPLE_SIZE
          let urlFindings := sitemapSampleFindings head sample
          let passFindings :=
            if urlFindings.length = 0 then
              [⟨IssueCode.SITEMAP_MISSING, Severity.pass, []⟩] else []
          let mismatchFindings :=
            match ctx.robotsTxt with
            | some txt =>
              let robotsSitemaps := robotsSitemapDirectives txt
              if 0 < robotsSitemaps.length ∧ sitemapUrl ∉ robotsSitemaps ∧
                  chain.finalUrl ∉ robotsSitemaps then
                [⟨IssueCode.SITEMAP_ROBOTS_MISMATCH, Severity.info, robotsSitemaps⟩]
              else []
            | none => []
          (redirectFindings ++ urlFindings ++ passFindings ++ mismatchFindings, ctx)

/-- The context of the failing run for C4: a fresh run with all caches
empty. -/
def sitemapDemoCtx : AuditContext :=
  { url := "https://example.com", normalizedUrl := "https://example.com/" }

/-- Parse outcome of the failing run for C4: a url-set with two entries
(mirrors the repository's own test
"stores sitemapUrls on ctx for urlset"). -/
def sitemapDemoParse : String → Except Unit SitemapParsed := fun _ =>
  Except.ok (SitemapParsed.urlset ["https://example.com/a", "https://example.com/b"])

/-- C4 (code bug): `auditSitemap` never populates the context's cached
sitemap-URL list.  First conjunct: on *every* input the returned context is
the one passed in, unchanged.  Second conjunct: on the concrete failing input
— a successfully fetched (200) and parsed url-set sitemap with two entries,
all HEAD checks 200 — the analyzer emits its aggregate pass finding, yet
`sitemapUrls` is still `none` on return, contradicting the spec and the
repository's own tests, which expect the two entry URLs to be cached for
crawl-mode. -/
theorem C4_sitemap_cache_never_populated :
    (∀ (ctx : AuditContext) (origin : String) (chain : RedirectChain)
      (page : Option PageResult) (parseXml : String → Except Unit SitemapParsed)
      (head : String → Option Nat),
      (auditSitemap ctx origin chain page parseXml head).2 = ctx) ∧
    ((auditSitemap sitemapDemoCtx "https://example.com"
        ⟨[], "https://example.com/sitemap.xml", false⟩
        (some ⟨"<urlset></urlset>", 200, [], "https://example.com/sitemap.xml"⟩)
        sitemapDemoParse (fun _ => some 200)).1.countP
          (fun f => f.severity = Severity.pass) = 1 ∧
      (auditSitemap sitemapDemoCtx "https://example.com"
        ⟨[], "https://example.com/sitemap.xml", false⟩
        (some ⟨"<urlset></urlset>", 200, [], "https://example.com/sitemap.xml"⟩)
        sitemapDemoParse (fun _ => some 200)).2.sitemapUrls = none) := by
  refine ⟨?_, by decide, by decide⟩
  intro ctx origin chain page parseXml head
  unfold auditSitemap
  cases page with
  | none => rfl
  | some res =>
    dsimp only
    repeat' split
    all_goals rfl

/-! ## Homepage-HTML cache preludes

Each phase-2 analyzer that needs the homepage HTML opens with a small
cache/fetch prelude.  These preludes are embedded one-to-one (the analysis
that follows them is irrelevant to the caching claim); `page` is the settled
outcome of `fetchPage(ctx.normalizedUrl, …)`, consulted only when the
analyzer actually fetches.  JavaScript truthiness makes a cached empty string
count as absent. -/

/-- JavaScript falsiness of an optional string (`undefined`/absent or `""`). -/
def jsFalsyStr : Option String → Bool
  | none => true
  | some s => s = ""

/-- Result of a cache/fetch prelude: the HTML the analyzer will work on
(`none` when the fetch failed and the analyzer returns no findings), the
context after the prelude, and whether a network fetch was performed. -/
structure HtmlAcquire where
  html : Option String
  ctx : AuditContext
  fetched : Bool
deriving DecidableEq, Repr

/-- Prelude of `auditI18n` (`src/audit/i18n.ts` lines 25–38): use `ctx.html`
when truthy, otherwise fetch and write both `ctx.html` and `ctx.headers`
back. -/
def i18nAcquireHtml (ctx : AuditContext) (page : Option PageResult) : HtmlAcquire :=
  if ¬ jsFalsyStr ctx.html then
    ⟨ctx.html, ctx, false⟩
  else
    match page with
    | some p => ⟨some p.body, { ctx with html := some p.body, headers := some p.headers }, true⟩
    | none => ⟨none, ctx, true⟩

/-- Prelude of `auditImages` (`src/audit/images.ts` lines 11–20): use
`ctx.html` when truthy, otherwise fetch and write `ctx.html` back. -/
def imagesAcquireHtml (ctx : AuditContext) (page : Option PageResult) : HtmlAcquire :=
  if ¬ jsFalsyStr ctx.html then
    ⟨ctx.html, ctx, false⟩
  else
    match page with
    | some p => ⟨some p.body, { ctx with html := some p.body }, true⟩
    | none => ⟨none, ctx, true⟩

/-- Prelude of `auditStructuredData` (`src/audit/structuredData.ts` lines
19–28): same shape as the images prelude — cache checked, `ctx.html` written
back after a fetch. -/
def structuredDataAcquireHtml (ctx : AuditContext) (page : Option PageResult) : HtmlAcquire :=
  if ¬ jsFalsyStr ctx.html then
    ⟨ctx.html, ctx, false⟩
  else
    match page with
    | some p => ⟨some p.body, { ctx with html := some p.body }, true⟩
    | none => ⟨none, ctx, true⟩

/-- Prelude of `auditPerformance` (`src/audit/performance.ts` lines 11–21):
cache checked, but a fetched body is *not* written back to the context. -/
def performanceAcquireHtml (ctx : AuditContext) (page : Option PageResult) : HtmlAcquire :=
  if ¬ jsFalsyStr ctx.html then
    ⟨ctx.html, ctx, false⟩
  else
    match page with
    | some p => ⟨some p.body, ctx, true⟩
    | none => ⟨none, ctx, true⟩

/-- HTML step of `auditFavicon` (`src/audit/favicon.ts` lines 22–31): cache
checked, but a fetched body is *not* written back to the context. -/
def faviconAcquireHtml (ctx : AuditContext) (page : Option PageResult) : HtmlAcquire :=
  if ¬ jsFalsyStr ctx.html then
    ⟨ctx.html, ctx, false⟩
  else
    match page with
    | some p => ⟨some p.body, ctx, true⟩
    | none => ⟨none, ctx, true⟩

/-! ## Metadata analyzer (`src/audit/metadata.ts`)

The analyzer fetches the homepage unconditionally (it never consults
`ctx.html`), writes `ctx.html`/`ctx.headers`, and then runs a sequence of
independent checks.  The cheerio extractors of `src/utils/html-parser.ts` are
abstracted as a `facts` oracle from the fetched body to the extracted values;
`resolve` abstracts `new URL(href, base).href` (`none` models a thrown
`TypeError`), `sameOrigin` abstracts `isSameOrigin` (`none` models a throw),
and `headStatus` the settled status of `fetchHead`. -/

/-- The values the cheerio-based extractors of `src/utils/html-parser.ts`
produce from one HTML document (each `Option` is `none` when the extractor
returns `null`). -/
structure HtmlFacts where
  noindex : Bool := false
  canonical : Option String := none
  charset : Option String := none
  viewport : Option String := none
  title : Option String := none
  description : Option String := none
  ogTitle : Option String := none
  ogDescription : Option String := none
  ogImage : Option String := none
  twitterCard : Option String := none
  twitterImage : Option String := none
deriving DecidableEq, Repr

/-- `Headers.get` over the captured header entries (case-insensitive names,
as the platform `Headers` object guarantees). -/
def headersGet (hs : List (String × String)) (name : String) : Option String :=
  (hs.find? fun p => jsLower p.1 = jsLower name).map (·.2)

/-- The cross-origin-canonical info of the canonical block
(`src/audit/metadata.ts` lines 97–110): fires when `isSameOrigin` answers
`false`; an `isSameOrigin` throw (already past the mismatch push) is caught
and yields nothing. -/
def canonicalExternalBlock (so : Option Bool) (cf : String) : List Finding :=
  match so with
  | some false => [⟨IssueCode.CANONICAL_EXTERNAL, Severity.info, [cf]⟩]
  | _ => []

/-- The checks on a successfully resolved canonical (`src/audit/metadata.ts`
lines 80–110): mismatch warning when the resolved canonical differs from both
the final fetched URL and the normalized URL, then the cross-origin check. -/
def canonicalResolvedBlock (normalizedUrl finalUrl cf : String)
    (sameOrigin : String → String → Option Bool) : List Finding :=
  (if cf ≠ finalUrl ∧ cf ≠ normalizedUrl then
    [⟨IssueCode.CANONICAL_MISMATCH, Severity.warning, [cf]⟩] else []) ++
  canonicalExternalBlock (sameOrigin cf normalizedUrl) cf

/-- The canonical-URL checks of `auditMetadata` (`src/audit/metadata.ts`
lines 64–114).  A falsy canonical yields the missing warning; otherwise the
canonical is resolved against the final fetched URL inside a `try` whose
`catch` swallows the rest of the block. -/
def canonicalFindings (normalizedUrl finalUrl : String) (canonical : Option String)
    (resolve : String → String → Option String)
    (sameOrigin : String → String → Option Bool) : List Finding :=
  match canonical with
  | none => [⟨IssueCode.CANONICAL_MISSING, Severity.warning, []⟩]
  | some c =>
    if c = "" then [⟨IssueCode.CANONICAL_MISSING, Severity.warning, []⟩]
    else
      match resolve c finalUrl with
      | none => []
      | some canonicalFull =>
        canonicalResolvedBlock normalizedUrl finalUrl canonicalFull sameOrigin

/-- The HEAD reachability check shared by the og:image and twitter:image
blocks (`src/audit/metadata.ts` lines 234–263 and 297–326): resolve the image
URL (absolute kept as-is), HEAD it, and emit the given broken-image warning
on a non-2xx status, a failed request, or a resolution error. -/
def imageHeadCheckFindings (code : IssueCode) (img finalUrl : String)
    (resolve : String → String → Option String) (headStatus : String → Option Nat) :
    List Finding :=
  match (if jsStartsWith "http" img then some img else resolve img finalUrl) with
  | none => [⟨code, Severity.warning, []⟩]
  | some u =>
    match headStatus u with
    | none => [⟨code, Severity.warning, []⟩]
    | some st =>
      if st < 200 ∨ 300 ≤ st then [⟨code, Severity.warning, [u]⟩] else []

/-- The og:image checks of `auditMetadata` (`src/audit/metadata.ts` lines
207–264): missing info when falsy, else a relative-URL warning and the HEAD
reachability check. -/
def ogImageBlock (img? : Option String) (finalUrl : String)
    (resolve : String → String → Option String) (headStatus : String → Option Nat) :
    List Finding :=
  match img? with
  | none => [⟨IssueCode.OG_IMAGE_MISSING, Severity.info, []⟩]
  | some img =>
    if img = "" then [⟨IssueCode.OG_IMAGE_MISSING, Severity.info, []⟩]
    else
      (if ¬ jsStartsWith "http://" img ∧ ¬ jsStartsWith "https://" img then
        [⟨IssueCode.OG_IMAGE_RELATIVE, Severity.warning, [img]⟩] else []) ++
      imageHeadCheckFindings IssueCode.OG_IMAGE_BROKEN img finalUrl resolve headStatus

/-- The twitter:image checks of `auditMetadata` (`src/audit/metadata.ts`
lines 284–327): missing info when falsy, else the HEAD reachability check. -/
def twitterImageBlock (img? : Option String) (finalUrl : String)
    (resolve : String → String → Option String) (headStatus : String → Option Nat) :
    List Finding :=
  match img? with
  | none => [⟨IssueCode.TWITTER_IMAGE_MISSING, Severity.info, []⟩]
  | some img =>
    if img = "" then [⟨IssueCode.TWITTER_IMAGE_MISSING, Severity.info, []⟩]
    else imageHeadCheckFindings IssueCode.TWITTER_IMAGE_BROKEN img finalUrl resolve headStatus

/-- The full findings sequence of `auditMetadata` on a successfully fetched
page (`src/audit/metadata.ts` lines 32–329), in source order. -/
def metadataFindings (normalizedUrl : String) (p : PageResult) (f : HtmlFacts)
    (resolve : String → String → Option String)
    (sameOrigin : String → String → Option Bool)
    (headStatus : String → Option Nat) : List Finding :=
  (if f.noindex then [⟨IssueCode.NOINDEX_DETECTED, Severity.error, []⟩] else []) ++
  (if jsIncludes "noindex" (jsLower ((headersGet p.headers "x-robots-tag").getD "")) then
    [⟨IssueCode.X_ROBOTS_NOINDEX, Severity.error, []⟩] else []) ++
  canonicalFindings normalizedUrl p.finalUrl f.canonical resolve sameOrigin ++
  (if jsFalsyStr f.charset then [⟨IssueCode.CHARSET_MISSING, Severity.info, []⟩] else []) ++
  (if jsFalsyStr f.viewport then [⟨IssueCode.VIEWPORT_MISSING, Severity.warning, []⟩] else []) ++
  (if jsFalsyStr f.title then [⟨IssueCode.TITLE_MISSING, Severity.warning, []⟩] else []) ++
  (if jsFalsyStr f.description then
    [⟨IssueCode.DESCRIPTION_MISSING, Severity.info, []⟩] else []) ++
  (if jsFalsyStr f.ogTitle then [⟨IssueCode.OG_TITLE_MISSING, Severity.info, []⟩] else []) ++
  (if jsFalsyStr f.ogDescription then
    [⟨IssueCode.OG_DESCRIPTION_MISSING, Severity.info, []⟩] else []) ++
  ogImageBlock f.ogImage p.finalUrl resolve headStatus ++
  (if jsFalsyStr f.twitterCard then
    [⟨IssueCode.TWITTER_CARD_MISSING, Severity.info, []⟩] else []) ++
  twitterImageBlock f.twitterImage p.finalUrl resolve headStatus

/-- `auditMetadata` from `src/audit/metadata.ts`: fetch the homepage
unconditionally (the context cache is never consulted), cache body and
headers, then compute the findings; a failed fetch returns no findings and
leaves the context untouched.  The third component records that a network
fetch was performed (always, in this analyzer). -/
def auditMetadata (ctx : AuditContext) (page : Option PageResult)
    (facts : String → HtmlFacts) (resolve : String → String → Option String)
    (sameOrigin : String → String → Option Bool) (headStatus : String → Option Nat) :
    List Finding × AuditContext × Bool :=
  match page with
  | none => ([], ctx, true)
  | some p =>
    let ctx' := { ctx with html := some p.body, headers := some p.headers }
    (metadataFindings ctx.normalizedUrl p (facts p.body) resolve sameOrigin headStatus,
      ctx', true)

/-! ### Counting lemmas for the metadata findings -/

/-- Is this the canonical-mismatch finding? -/
def isMismatch (fi : Finding) : Bool :=
  fi.code = IssueCode.CANONICAL_MISMATCH

/-- Every finding of the broken-image HEAD check carries the given code. -/
theorem imageHeadCheckFindings_code (code : IssueCode) (img finalUrl : String)
    (resolve : String → String → Option String) (headStatus : String → Option Nat) :
    ∀ a ∈ imageHeadCheckFindings code img finalUrl resolve headStatus, a.code = code := by
  intro a ha
  unfold imageHeadCheckFindings at ha
  split at ha
  · rw [List.mem_singleton] at ha
    rw [ha]
  · split at ha
    · rw [List.mem_singleton] at ha
      rw [ha]
    · split at ha
      · rw [List.mem_singleton] at ha
        rw [ha]
      · exact absurd ha (List.not_mem_nil a)

/-- The og:image block never emits a canonical-mismatch finding. -/
theorem ogImageBlock_mismatch_count (img? : Option String) (finalUrl : String)
    (resolve : String → String → Option String) (headStatus : String → Option Nat) :
    (ogImageBlock img? finalUrl resolve headStatus).countP isMismatch = 0 := by
  rw [List.countP_eq_zero]
  intro a ha
  unfold ogImageBlock at ha
  split at ha
  · rw [List.mem_singleton] at ha
    rw [ha]
    decide
  · split at ha
    · rw [List.mem_singleton] at ha
      rw [ha]
      decide
    · rw [List.mem_append] at ha
      rcases ha with ha | ha
      · split at ha
        · rw [List.mem_singleton] at ha
          rw [ha]
          simp [isMismatch]
        · exact absurd ha (List.not_mem_nil a)
      · have := imageHeadCheckFindings_code IssueCode.OG_IMAGE_BROKEN _ _ resolve headStatus a ha
        simp [isMismatch, this]

/-- The twitter:image block never emits a canonical-mismatch finding. -/
theorem twitterImageBlock_mismatch_count (img? : Option String) (finalUrl : String)
    (resolve : String → String → Option String) (headStatus : String → Option Nat) :
    (twitterImageBlock img? finalUrl resolve headStatus).countP isMismatch = 0 := by
  rw [List.countP_eq_zero]
  intro a ha
  unfold twitterImageBlock at ha
  split at ha
  · rw [List.mem_singleton] at ha
    rw [ha]
    decide
  · split at ha
    · rw [List.mem_singleton] at ha
      rw [ha]
      decide
    · have := imageHeadCheckFindings_code IssueCode.TWITTER_IMAGE_BROKEN _ _ resolve headStatus a ha
      simp [isMismatch, this]

/-- Count of a conditional singleton finding under the mismatch predicate. -/
theorem countP_mismatch_if_single (cond : Prop) [Decidable cond] (co : IssueCode)
    (sev : Severity) (det : List String) :
    ((if cond then [(⟨co, sev, det⟩ : Finding)] else []).countP isMismatch) =
      if cond ∧ co = IssueCode.CANONICAL_MISMATCH then 1 else 0 := by
  by_cases h : cond <;> by_cases ht : co = IssueCode.CANONICAL_MISMATCH <;>
    simp [h, ht, isMismatch]

/-- The mismatch count of the canonical block, given a truthy canonical that
resolves successfully. -/
theorem canonicalFindings_mismatch_count (normalizedUrl finalUrl c cf : String)
    (resolve : String → String → Option String)
    (sameOrigin : String → String → Option Bool)
    (hc : c ≠ "") (hres : resolve c finalUrl = some cf) :
    (canonicalFindings normalizedUrl finalUrl (some c) resolve sameOrigin).countP isMismatch =
      if cf ≠ finalUrl ∧ cf ≠ normalizedUrl then 1 else 0 := by
  have hstep : canonicalFindings normalizedUrl finalUrl (some c) resolve sameOrigin =
      canonicalResolvedBlock normalizedUrl finalUrl cf sameOrigin := by
    simp only [canonicalFindings]
    rw [if_neg hc, hres]
  rw [hstep]
  unfold canonicalResolvedBlock
  rw [List.countP_append, countP_mismatch_if_single]
  have hext : (canonicalExternalBlock (sameOrigin cf normalizedUrl) cf).countP isMismatch = 0 := by
    rw [List.countP_eq_zero]
    intro a ha
    unfold canonicalExternalBlock at ha
    split at ha
    · rw [List.mem_singleton] at ha
      rw [ha]
      simp [isMismatch]
    · exact absurd ha (List.not_mem_nil a)
  rw [hext, Nat.add_zero]
  split
  · rename_i hcond
    rw [if_pos hcond.1]
  · rename_i hcond
    rw [if_neg]
    intro hcontra
    exact hcond ⟨hcontra, by decide⟩

/-- In the full metadata findings, the canonical block is the only source of
canonical-mismatch findings. -/
theorem metadataFindings_mismatch_count (normalizedUrl : String) (p : PageResult)
    (f : HtmlFacts) (resolve : String → String → Option String)
    (sameOrigin : String → String → Option Bool) (headStatus : String → Option Nat) :
    (metadataFindings normalizedUrl p f resolve sameOrigin headStatus).countP isMismatch =
      (canonicalFindings normalizedUrl p.finalUrl f.canonical resolve sameOrigin).countP
        isMismatch := by
  unfold metadataFindings
  simp only [List.countP_append, countP_mismatch_if_single,
    ogImageBlock_mismatch_count, twitterImageBlock_mismatch_count]
  simp

/-- C6 (amended): with a truthy declared canonical that resolves to an
absolute URL, the metadata analyzer emits the `CANONICAL_MISMATCH` warning
exactly when the resolved canonical differs from **both** the final fetched
URL and the normalized input URL; matching either one suppresses the
warning. -/
theorem C6_amended (ctx : AuditContext) (p : PageResult) (facts : String → HtmlFacts)
    (resolve : String → String → Option String) (sameOrigin : String → String → Option Bool)
    (headStatus : String → Option Nat) (c cf : String)
    (hcanon : (facts p.body).canonical = some c) (hc : c ≠ "")
    (hres : resolve c p.finalUrl = some cf) :
    (auditMetadata ctx (some p) facts resolve sameOrigin headStatus).1.countP isMismatch =
      if cf ≠ p.finalUrl ∧ cf ≠ ctx.normalizedUrl then 1 else 0 := by
  show (metadataFindings ctx.normalizedUrl p (facts p.body) resolve sameOrigin
    headStatus).countP isMismatch = _
  rw [metadataFindings_mismatch_count, hcanon,
    canonicalFindings_mismatch_count ctx.normalizedUrl p.finalUrl c cf resolve sameOrigin
      hc hres]

/-! ### Concrete metadata inputs -/

/-- Fresh context of the metadata demo run. -/
def metaDemoCtx : AuditContext :=
  { url := "https://example.com", normalizedUrl := "https://example.com/" }

/-- A fetched homepage whose final URL differs from the normalized URL (the
homepage redirected to `/home`). -/
def metaDemoPage : PageResult :=
  { body := "<html></html>", status := 200, headers := [],
    finalUrl := "https://example.com/home" }

/-- Extracted facts of the demo homepage: every tag present; the canonical
equals the normalized input URL (not the final fetched URL). -/
def metaDemoFacts : String → HtmlFacts := fun _ =>
  { noindex := false, canonical := some "https://example.com/",
    charset := some "utf-8", viewport := some "width=device-width",
    title := some "T", description := some "D", ogTitle := some "OT",
    ogDescription := some "OD", ogImage := some "https://example.com/og.png",
    twitterCard := some "summary", twitterImage := some "https://example.com/tw.png" }

/-- Resolution oracle for already-absolute canonical/image URLs. -/
def resolveKeep : String → String → Option String := fun loc _ => some loc

/-- Same-origin oracle answering `true` (all demo URLs share an origin). -/
def sameOriginTrue : String → String → Option Bool := fun _ _ => some true

/-- HEAD oracle answering 200. -/
def headOk : String → Option Nat := fun _ => some 200

/-- C6 counterexample: the homepage's canonical resolves to the normalized
input URL, which differs from the final fetched URL — the claim requires a
`CANONICAL_MISMATCH` warning, but the analyzer emits none, because the code
also suppresses the warning when the canonical matches the normalized URL. -/
theorem C6_counterexample :
    (auditMetadata metaDemoCtx (some metaDemoPage) metaDemoFacts resolveKeep
        sameOriginTrue headOk).1.countP isMismatch = 0 ∧
      resolveKeep "https://example.com/" metaDemoPage.finalUrl =
        some "https://example.com/" ∧
      "https://example.com/" ≠ metaDemoPage.finalUrl ∧
      (metaDemoFacts metaDemoPage.body).canonical = some "https://example.com/" := by
  refine ⟨by decide, rfl, by decide, rfl⟩

/-- Witness for `C6_amended`: a canonical resolving to a third URL differing
from both the final fetched URL and the normalized URL does produce exactly
one mismatch warning. -/
theorem C6_amended_witness :
    (auditMetadata metaDemoCtx (some metaDemoPage)
        (fun _ => { metaDemoFacts "" with canonical := some "https://other.example/x" })
        resolveKeep sameOriginTrue headOk).1.countP isMismatch = 1 := by
  rw [C6_amended metaDemoCtx metaDemoPage _ resolveKeep sameOriginTrue headOk
    "https://other.example/x" "https://other.example/x" rfl (by decide) rfl]
  decide

/-! ### Cache-discipline theorems (C5) -/

/-- C5 counterexample: with a warm HTML cache, the metadata analyzer still
performs a network fetch (and overwrites the cache with the newly fetched
body), and with a cold cache the performance and favicon analyzers fetch but
do not write the body back — three violations of the claimed uniform
check-then-fetch-then-write-back discipline. -/
theorem C5_counterexample :
    ((auditMetadata { metaDemoCtx with html := some "<html>cached</html>" }
        (some metaDemoPage) metaDemoFacts resolveKeep sameOriginTrue headOk).2.2 = true ∧
      (auditMetadata { metaDemoCtx with html := some "<html>cached</html>" }
        (some metaDemoPage) metaDemoFacts resolveKeep sameOriginTrue
        headOk).2.1.html = some "<html></html>") ∧
      (performanceAcquireHtml metaDemoCtx (some metaDemoPage)).fetched = true ∧
      (performanceAcquireHtml metaDemoCtx (some metaDemoPage)).ctx.html = none ∧
      (faviconAcquireHtml metaDemoCtx (some metaDemoPage)).ctx.html = none := by
  exact ⟨⟨rfl, rfl⟩, rfl, rfl, rfl⟩

/-- C5 (amended): cache discipline per analyzer.  (1) With a truthy cached
HTML, the i18n, images, structured-data, performance and favicon analyzers
use the cache, perform no fetch, and leave the context unchanged.  (2) With
an absent (falsy) cache and a successful fetch, i18n writes back both HTML
and headers, images and structured-data write back the HTML, while
performance and favicon leave the context unchanged; all five report having
fetched.  (3) The metadata analyzer performs its fetch on every input, and on
success writes the fetched HTML and headers back. -/
theorem C5_amended :
    (∀ (ctx : AuditContext) (page : Option PageResult) (h : String),
      ctx.html = some h → h ≠ "" →
      i18nAcquireHtml ctx page = ⟨some h, ctx, false⟩ ∧
      imagesAcquireHtml ctx page = ⟨some h, ctx, false⟩ ∧
      structuredDataAcquireHtml ctx page = ⟨some h, ctx, false⟩ ∧
      performanceAcquireHtml ctx page = ⟨some h, ctx, false⟩ ∧
      faviconAcquireHtml ctx page = ⟨some h, ctx, false⟩) ∧
    (∀ (ctx : AuditContext) (p : PageResult), jsFalsyStr ctx.html = true →
      i18nAcquireHtml ctx (some p) =
        ⟨some p.body, { ctx with html := some p.body, headers := some p.headers }, true⟩ ∧
      imagesAcquireHtml ctx (some p) =
        ⟨some p.body, { ctx with html := some p.body }, true⟩ ∧
      structuredDataAcquireHtml ctx (some p) =
        ⟨some p.body, { ctx with html := some p.body }, true⟩ ∧
      performanceAcquireHtml ctx (some p) = ⟨some p.body, ctx, true⟩ ∧
      faviconAcquireHtml ctx (some p) = ⟨some p.body, ctx, true⟩) ∧
    (∀ (ctx : AuditContext) (page : Option PageResult) (facts : String → HtmlFacts)
      (resolve : String → String → Option String) (sameOrigin : String → String → Option Bool)
      (headStatus : String → Option Nat),
      (auditMetadata ctx page facts resolve sameOrigin headStatus).2.2 = true ∧
      ∀ p : PageResult, page = some p →
        (auditMetadata ctx page facts resolve sameOrigin headStatus).2.1.html =
          some p.body) := by
  refine ⟨?_, ?_, ?_⟩
  · intro ctx page h hh hne
    have hfalsy : jsFalsyStr ctx.html = false := by
      rw [hh]
      simpa [jsFalsyStr] using hne
    constructor
    · unfold i18nAcquireHtml
      rw [if_pos (by simp [hfalsy]), hh]
    constructor
    · unfold imagesAcquireHtml
      rw [if_pos (by simp [hfalsy]), hh]
    constructor
    · unfold structuredDataAcquireHtml
      rw [if_pos (by simp [hfalsy]), hh]
    constructor
    · unfold performanceAcquireHtml
      rw [if_pos (by simp [hfalsy]), hh]
    · unfold faviconAcquireHtml
      rw [if_pos (by simp [hfalsy]), hh]
  · intro ctx p hfalsy
    refine ⟨?_, ?_, ?_, ?_, ?_⟩ <;>
      simp [i18nAcquireHtml, imagesAcquireHtml, structuredDataAcquireHtml,
        performanceAcquireHtml, faviconAcquireHtml, hfalsy]
  · intro ctx page facts resolve sameOrigin headStatus
    cases page with
    | none => exact ⟨rfl, fun p hp => Option.noConfusion hp⟩
    | some p =>
      exact ⟨rfl, fun q hq => by rw [Option.some_inj] at hq; rw [hq]; rfl⟩

/-- Witness for `C5_amended`, instantiated on a warm cache and on a cold
cache with the demo page. -/
theorem C5_amended_witness :
    i18nAcquireHtml { metaDemoCtx with html := some "<html>cached</html>" } none =
        ⟨some "<html>cached</html>", { metaDemoCtx with html := some "<html>cached</html>" },
          false⟩ ∧
      performanceAcquireHtml metaDemoCtx (some metaDemoPage) =
        ⟨some metaDemoPage.body, metaDemoCtx, true⟩ ∧
      (auditMetadata metaDemoCtx (some metaDemoPage) metaDemoFacts resolveKeep
        sameOriginTrue headOk).2.2 = true :=
  ⟨(C5_amended.1 { metaDemoCtx with html := some "<html>cached</html>" } none
      "<html>cached</html>" rfl (by decide)).1,
    (C5_amended.2.1 metaDemoCtx metaDemoPage rfl).2.2.2.1,
    (C5_amended.2.2 metaDemoCtx (some metaDemoPage) metaDemoFacts resolveKeep
      sameOriginTrue headOk).1⟩

/-! ## Structured-data analyzer (`src/audit/structuredData.ts`)

The cheerio extraction of `<script type="application/ld+json">` text contents
is abstracted as `scriptsOf : String → List String`, and `JSON.parse` as
`parseJson : String → Option JsValue` (`none` models a thrown
`SyntaxError`). -/

/-- A JavaScript value as produced by `JSON.parse`. -/
inductive JsValue where
  | null
  | bool (b : Bool)
  | num (n : Int)
  | str (s : String)
  | arr (elems : List JsValue)
  | obj (fields : List (String × JsValue))

/-- JavaScript truthiness of a defined value. -/
def jsTruthy : JsValue → Bool
  | JsValue.null => false
  | JsValue.bool b => b
  | JsValue.num n => n ≠ 0
  | JsValue.str s => s ≠ ""
  | JsValue.arr _ => true
  | JsValue.obj _ => true

/-- Property lookup `record[key]` (`none` is `undefined`). -/
def jsGetField (fields : List (String × JsValue)) (key : String) : Option JsValue :=
  (fields.find? fun p => p.1 = key).map (·.2)

/-- Truthiness of `record[key]` (an absent property is falsy). -/
def jsFieldTruthy (fields : List (String × JsValue)) (key : String) : Bool :=
  match jsGetField fields key with
  | none => false
  | some v => jsTruthy v

mutual

/-- JavaScript `String(v)` (an array stringifies as its comma-joined
elements, an object as `[object Object]`). -/
def jsToString : JsValue → String
  | JsValue.null => "null"
  | JsValue.bool b => if b then "true" else "false"
  | JsValue.num n => toString n
  | JsValue.str s => s
  | JsValue.arr l => jsJoin "," (jsToStringList l)
  | JsValue.obj _ => "[object Object]"

/-- `jsToString` mapped over the elements of an array value. -/
def jsToStringList : List JsValue → List String
  | [] => []
  | v :: vs => jsToString v :: jsToStringList vs

end

/-- `REQUIRED_FIELDS` from `src/audit/structuredData.ts`: the closed table of
recognized schema types and their required fields. -/
def REQUIRED_FIELDS : List (String × List String) :=
  [("Article", ["headline", "author"]),
   ("BreadcrumbList", ["itemListElement"]),
   ("FAQPage", ["mainEntity"]),
   ("Product", ["name"]),
   ("Organization", ["name"]),
   ("WebSite", ["name", "url"]),
   ("LocalBusiness", ["name", "address"])]

/-- The "missing required field" test of `src/audit/structuredData.ts`
(lines 106–111): absent, `null`, empty string, or empty array. -/
def fieldMissing (fields : List (String × JsValue)) (field : String) : Bool :=
  match jsGetField fields field with
  | none => true
  | some JsValue.null => true
  | some (JsValue.str s) => s = ""
  | some (JsValue.arr l) => l.isEmpty
  | some _ => false

/-- The stringified `@type` of a record (`String(record['@type'])`;
only evaluated when the property is truthy, hence defined). -/
def typeOf (fields : List (String × JsValue)) : String :=
  jsToString ((jsGetField fields "@type").getD JsValue.null)

/-- The `@context` warning of one record (`src/audit/structuredData.ts`
lines 78–88). -/
def contextBlock (fields : List (String × JsValue)) : List Finding :=
  if jsFieldTruthy fields "@context" then []
  else [⟨IssueCode.JSONLD_MISSING_CONTEXT, Severity.warning, []⟩]

/-- The required-field check of one record against the recognized-type table
(`src/audit/structuredData.ts` lines 103–127). -/
def requiredFieldsBlock (fields : List (String × JsValue)) (type : String) : List Finding :=
  match (REQUIRED_FIELDS.find? fun p => p.1 = type).map (·.2) with
  | some reqs =>
    let missing := reqs.filter fun fl => fieldMissing fields fl
    if 0 < missing.length then
      [⟨IssueCode.JSONLD_EMPTY_FIELDS, Severity.warning, missing⟩] else []
  | none => []

/-- Processing of one record's fields (`src/audit/structuredData.ts` lines
78–128): an `@context` warning, then either an `@type` warning (skipping the
rest), or the detected type plus the required-field check for recognized
types.  Returns the findings and the detected-type contribution. -/
def processRecord (fields : List (String × JsValue)) : List Finding × List String :=
  if ¬ jsFieldTruthy fields "@type" then
    (contextBlock fields ++ [⟨IssueCode.JSONLD_MISSING_TYPE, Severity.warning, []⟩], [])
  else
    (contextBlock fields ++ requiredFieldsBlock fields (typeOf fields), [typeOf fields])

/-- Processing of one parsed element (`src/audit/structuredData.ts` lines
75–77): non-object values (and `null`) are skipped; arrays have object type
but no own string-keyed properties. -/
def processObject : JsValue → List Finding × List String
  | JsValue.obj fields => processRecord fields
  | JsValue.arr _ => processRecord []
  | _ => ([], [])

/-- The element list a parsed value is processed as
(`Array.isArray(data) ? data : [data]`). -/
def elemsOf : JsValue → List JsValue
  | JsValue.arr l => l
  | d => [d]

/-- Processing of one `<script type="application/ld+json">` block
(`src/audit/structuredData.ts` lines 51–129): whitespace-only blocks are
skipped before parsing, a parse failure is one invalid-JSON error, and a
parsed array is processed element-wise. -/
def processScript (parseJson : String → Option JsValue) (raw : String) :
    List Finding × List String :=
  if jsTrim raw = "" then ([], [])
  else
    match parseJson (jsTrim raw) with
    | none => ([⟨IssueCode.JSONLD_INVALID_JSON, Severity.error, []⟩], [])
    | some data =>
      (((elemsOf data).map fun v => (processObject v).1).flatten,
        ((elemsOf data).map fun v => (processObject v).2).flatten)

/-- The detected `@type` strings across all script blocks, in order. -/
def detectedTypesOf (parseJson : String → Option JsValue) (scripts : List String) :
    List String :=
  (scripts.map fun s => (processScript parseJson s).2).flatten

/-- `auditStructuredData` from `src/audit/structuredData.ts`: acquire the
HTML through the cache prelude, warn-and-stop when no JSON-LD blocks exist,
process each block, and append a single aggregate pass listing the detected
types when at least one was collected. -/
def auditStructuredData (ctx : AuditContext) (page : Option PageResult)
    (scriptsOf : String → List String) (parseJson : String → Option JsValue) :
    List Finding × AuditContext × Bool :=
  match (structuredDataAcquireHtml ctx page).html with
  | none => ([], (structuredDataAcquireHtml ctx page).ctx,
      (structuredDataAcquireHtml ctx page).fetched)
  | some html =>
    let scripts := scriptsOf html
    if scripts.length = 0 then
      ([⟨IssueCode.JSONLD_MISSING, Severity.warning, []⟩],
        (structuredDataAcquireHtml ctx page).ctx,
        (structuredDataAcquireHtml ctx page).fetched)
    else
      ((scripts.map fun s => (processScript parseJson s).1).flatten ++
        (if 0 < (detectedTypesOf parseJson scripts).length then
          [⟨IssueCode.JSONLD_MISSING, Severity.pass, detectedTypesOf parseJson scripts⟩]
        else []),
        (structuredDataAcquireHtml ctx page).ctx,
        (structuredDataAcquireHtml ctx page).fetched)

/-! ### Structured-data lemmas -/

/-- A parsed element that contributes a detected type: an object whose
`@type` property is truthy. -/
def hasTruthyType : JsValue → Bool
  | JsValue.obj fields => jsFieldTruthy fields "@type"
  | _ => false

/-- A script block that yields at least one detected type: non-whitespace,
parses, and some processed element is an object with truthy `@type`. -/
def scriptHasTypedObject (parseJson : String → Option JsValue) (raw : String) : Bool :=
  jsTrim raw ≠ "" &&
    match parseJson (jsTrim raw) with
    | none => false
    | some data => (elemsOf data).any hasTruthyType

/-- The type contribution of one record. -/
theorem processRecord_snd (fields : List (String × JsValue)) :
    (processRecord fields).2 =
      if jsFieldTruthy fields "@type" = true then [typeOf fields] else [] := by
  unfold processRecord
  by_cases ht : jsFieldTruthy fields "@type" = true <;> simp [ht]

/-- An element contributes a detected type exactly when it is an object with
truthy `@type`. -/
theorem processObject_types (v : JsValue) :
    0 < (processObject v).2.length ↔ hasTruthyType v = true := by
  cases v with
  | obj fields =>
    simp only [processObject, hasTruthyType, processRecord_snd]
    by_cases ht : jsFieldTruthy fields "@type" = true <;> simp [ht]
  | arr l =>
    simp only [processObject, hasTruthyType, processRecord_snd]
    simp [jsFieldTruthy, jsGetField]
  | null => simp [processObject, hasTruthyType]
  | bool b => simp [processObject, hasTruthyType]
  | num n => simp [processObject, hasTruthyType]
  | str s => simp [processObject, hasTruthyType]

/-- Every finding a record contributes is a warning. -/
theorem processRecord_severity (fields : List (String × JsValue)) :
    ∀ a ∈ (processRecord fields).1, a.severity = Severity.warning := by
  intro a ha
  have hctx : ∀ b ∈ contextBlock fields, Finding.severity b = Severity.warning := by
    intro b hb
    unfold contextBlock at hb
    split at hb
    · exact absurd hb (List.not_mem_nil b)
    · rw [List.mem_singleton] at hb
      rw [hb]
  have hreq : ∀ (t : String), ∀ b ∈ requiredFieldsBlock fields t,
      Finding.severity b = Severity.warning := by
    intro t b hb
    unfold requiredFieldsBlock at hb
    split at hb
    · dsimp only at hb
      split at hb
      · rw [List.mem_singleton] at hb
        rw [hb]
      · exact absurd hb (List.not_mem_nil b)
    · exact absurd hb (List.not_mem_nil b)
  unfold processRecord at ha
  split at ha
  · rw [List.mem_append] at ha
    rcases ha with ha | ha
    · exact hctx a ha
    · rw [List.mem_singleton] at ha
      rw [ha]
  · rw [List.mem_append] at ha
    rcases ha with ha | ha
    · exact hctx a ha
    · exact hreq (typeOf fields) a ha

/-- Every finding an element contributes is a warning. -/
theorem processObject_severity (v : JsValue) :
    ∀ a ∈ (processObject v).1, a.severity = Severity.warning := by
  cases v with
  | obj fields => exact processRecord_severity fields
  | arr l => exact processRecord_severity []
  | null => intro a ha; exact absurd ha (List.not_mem_nil a)
  | bool b => intro a ha; exact absurd ha (List.not_mem_nil a)
  | num n => intro a ha; exact absurd ha (List.not_mem_nil a)
  | str s => intro a ha; exact absurd ha (List.not_mem_nil a)

/-- No finding of a script block has severity `pass` (they are warnings or
the invalid-JSON error). -/
theorem processScript_no_pass (parseJson : String → Option JsValue) (s : String) :
    ∀ a ∈ (processScript parseJson s).1, ¬ a.severity = Severity.pass := by
  intro a ha
  unfold processScript at ha
  split at ha
  · exact absurd ha (List.not_mem_nil a)
  · split at ha
    · rw [List.mem_singleton] at ha
      rw [ha]
      decide
    · rw [List.mem_flatten] at ha
      obtain ⟨l, hl, hal⟩ := ha
      rw [List.mem_map] at hl
      obtain ⟨v, _, rfl⟩ := hl
      rw [processObject_severity v a hal]
      decide

/-- Flattened type contributions are nonempty exactly when some element has a
truthy `@type`. -/
theorem flatten_types_any (l : List JsValue) :
    0 < ((l.map fun v => (processObject v).2).flatten).length ↔
      l.any hasTruthyType = true := by
  induction l with
  | nil => simp
  | cons v t ih =>
    simp only [List.map_cons, List.flatten_cons, List.length_append, List.any_cons,
      Bool.or_eq_true, ← processObject_types, ← ih]
    omega

/-- A script contributes a detected type exactly when `scriptHasTypedObject`
holds of it. -/
theorem processScript_types (parseJson : String → Option JsValue) (s : String) :
    0 < (processScript parseJson s).2.length ↔
      scriptHasTypedObject parseJson s = true := by
  unfold processScript scriptHasTypedObject
  by_cases he : jsTrim s = ""
  · simp [he]
  · rw [if_neg he]
    cases hp : parseJson (jsTrim s) with
    | none => simp [he, hp]
    | some data =>
      dsimp only
      rw [flatten_types_any]
      simp [he]

/-- A whitespace-only script block is skipped entirely. -/
theorem processScript_whitespace (parseJson : String → Option JsValue) (s : String)
    (h : jsTrim s = "") : processScript parseJson s = ([], []) := by
  unfold processScript
  rw [if_pos h]

/-- The detected types across a script list are nonempty exactly when some
script yields a typed object. -/
theorem detectedTypesOf_any (parseJson : String → Option JsValue) (scripts : List String) :
    0 < (detectedTypesOf parseJson scripts).length ↔
      ∃ s ∈ scripts, scriptHasTypedObject parseJson s = true := by
  unfold detectedTypesOf
  induction scripts with
  | nil => simp
  | cons s t ih =>
    simp only [List.map_cons, List.flatten_cons, List.length_append, List.mem_cons]
    constructor
    · intro h
      by_cases h1 : 0 < (processScript parseJson s).2.length
      · exact ⟨s, Or.inl rfl, (processScript_types parseJson s).mp h1⟩
      · have hb : 0 < ((t.map fun u => (processScript parseJson u).2).flatten).length := by
          omega
        obtain ⟨u, hu, hty⟩ := ih.mp hb
        exact ⟨u, Or.inr hu, hty⟩
    · rintro ⟨u, hu | hu, hty⟩
      · rw [hu] at hty
        have := (processScript_types parseJson s).mpr hty
        omega
      · have := ih.mpr ⟨u, hu, hty⟩
        omega

/-- C7 (amended): the structured-data analyzer emits a single aggregate pass
finding — listing every detected `@type` in order — exactly when at least one
successfully parsed object yielded a truthy `@type`, whether or not that type
is one of the seven recognized schema types; otherwise no pass finding is
emitted. -/
theorem C7_amended (ctx : AuditContext) (page : Option PageResult)
    (scriptsOf : String → List String) (parseJson : String → Option JsValue) (html : String)
    (hacq : (structuredDataAcquireHtml ctx page).html = some html) :
    ((auditStructuredData ctx page scriptsOf parseJson).1.filter
        (fun fi => fi.severity = Severity.pass) =
      if 0 < (detectedTypesOf parseJson (scriptsOf html)).length then
        [⟨IssueCode.JSONLD_MISSING, Severity.pass, detectedTypesOf parseJson (scriptsOf html)⟩]
      else []) ∧
    (0 < (detectedTypesOf parseJson (scriptsOf html)).length ↔
      ∃ s ∈ scriptsOf html, scriptHasTypedObject parseJson s = true) := by
  refine ⟨?_, detectedTypesOf_any parseJson (scriptsOf html)⟩
  unfold auditStructuredData
  rw [hacq]
  dsimp only
  by_cases hlen : (scriptsOf html).length = 0
  · rw [if_pos hlen, List.length_eq_zero.mp hlen]
    simp [detectedTypesOf]
  · rw [if_neg hlen, List.filter_append]
    have hfl : (((scriptsOf html).map fun s => (processScript parseJson s).1).flatten.filter
        fun fi => fi.severity = Severity.pass) = [] := by
      rw [List.filter_eq_nil_iff]
      intro a ha
      rw [List.mem_flatten] at ha
      obtain ⟨l, hl, hal⟩ := ha
      rw [List.mem_map] at hl
      obtain ⟨s, _, rfl⟩ := hl
      simpa using processScript_no_pass parseJson s a hal
    rw [hfl, List.nil_append]
    by_cases hc : 0 < (detectedTypesOf parseJson (scriptsOf html)).length
    · rw [if_pos hc]
      simp
    · rw [if_neg hc]
      simp

/-- C10: when every JSON-LD block on the page is empty or whitespace-only
(and at least one block exists), the structured-data analyzer returns an
empty finding list: the blocks are skipped before JSON parsing, so there is
no missing-JSON-LD warning, no invalid-JSON error, and no aggregate pass. -/
theorem C10_whitespace_scripts_no_findings (ctx : AuditContext)
    (page : Option PageResult) (scriptsOf : String → List String)
    (parseJson : String → Option JsValue) (html : String)
    (hacq : (structuredDataAcquireHtml ctx page).html = some html)
    (hne : 0 < (scriptsOf html).length)
    (hws : ∀ s ∈ scriptsOf html, jsTrim s = "") :
    (auditStructuredData ctx page scriptsOf parseJson).1 = [] := by
  unfold auditStructuredData
  rw [hacq]
  dsimp only
  rw [if_neg (by omega)]
  have hmap : ∀ s ∈ scriptsOf html, processScript parseJson s = ([], []) := fun s hs =>
    processScript_whitespace parseJson s (hws s hs)
  have h1 : ((scriptsOf html).map fun s => (processScript parseJson s).1).flatten = [] := by
    rw [List.flatten_eq_nil_iff]
    intro l hl
    rw [List.mem_map] at hl
    obtain ⟨s, hs, rfl⟩ := hl
    rw [hmap s hs]
  have h2 : detectedTypesOf parseJson (scriptsOf html) = [] := by
    unfold detectedTypesOf
    rw [List.flatten_eq_nil_iff]
    intro l hl
    rw [List.mem_map] at hl
    obtain ⟨s, hs, rfl⟩ := hl
    rw [hmap s hs]
  rw [h1, h2]
  simp

/-! ### Concrete structured-data inputs -/

/-- A context whose HTML cache is warm. -/
def sdDemoCtx : AuditContext :=
  { url := "https://example.com", normalizedUrl := "https://example.com/",
    html := some "<html>x</html>" }

/-- Parse oracle yielding one object with an unrecognized `@type`. -/
def sdParseCustomType : String → Option JsValue := fun _ =>
  some (JsValue.obj
    [("@context", JsValue.str "https://schema.org"),
      ("@type", JsValue.str "SomeCustomType")])

/-- One JSON-LD block on the page. -/
def sdOneScript : String → List String := fun _ =>
  ["\x7b\"@context\":\"https://schema.org\",\"@type\":\"SomeCustomType\"\x7d"]

/-- Whitespace-only JSON-LD blocks. -/
def sdWsScripts : String → List String := fun _ => ["   ", "\n\t"]

/-- C7 counterexample: one parsed object whose `@type` (`SomeCustomType`) is
*not* in the recognized-type table still yields the aggregate pass finding —
the findings are exactly one pass listing that type — contradicting the claim
that only recognized types produce a pass. -/
theorem C7_counterexample :
    (auditStructuredData sdDemoCtx none sdOneScript sdParseCustomType).1 =
        [⟨IssueCode.JSONLD_MISSING, Severity.pass, ["SomeCustomType"]⟩] ∧
      (REQUIRED_FIELDS.find? fun p => p.1 = "SomeCustomType") = none := by
  exact ⟨by decide, by decide⟩

/-- Witness for `C7_amended` on the unrecognized-type page. -/
theorem C7_amended_witness :
    (auditStructuredData sdDemoCtx none sdOneScript sdParseCustomType).1.filter
        (fun fi => fi.severity = Severity.pass) =
      [⟨IssueCode.JSONLD_MISSING, Severity.pass, ["SomeCustomType"]⟩] := by
  rw [(C7_amended sdDemoCtx none sdOneScript sdParseCustomType "<html>x</html>" rfl).1]
  decide

/-- Witness for `C10_whitespace_scripts_no_findings` on two whitespace
blocks. -/
theorem C10_witness :
    (auditStructuredData sdDemoCtx none sdWsScripts sdParseCustomType).1 = [] :=
  C10_whitespace_scripts_no_findings sdDemoCtx none sdWsScripts sdParseCustomType
    "<html>x</html>" rfl (by decide) (by decide)

end SeoAudit
